import Mathlib

/-!
# Verification of the three-vehicle car-following simulation

Shallow embedding, over `ℚ`, of the discrete-time simulation core of the
repository (variants `Line`, `White Noise`, `ring_F1_onlylookforward`,
`ring2_BasedOnLine`).  Each Python model's per-step state update is
translated into an executable Lean function; the Gaussian draws of the
stochastic variants are abstracted as explicit input streams.
-/

namespace CarFollow

/-- `np.clip(x, lo, hi)`: the lower bound is applied first, then the upper
bound (so when `lo > hi` the result is `hi`). -/
def npClip (x lo hi : ℚ) : ℚ := min (max x lo) hi

/-- Python's `%` on reals (as used on positions with a positive track
length): `x - L * floor (x / L)`. -/
def pymod (x L : ℚ) : ℚ := x - L * ⌊x / L⌋

/-- `heaviside_step` from the source (identical in all four variants):
`1 if x > 0 else 0`. -/
def heaviside_step (x : ℚ) : ℕ := if 0 < x then 1 else 0

/-- The mode classifier: every variant computes
`lambda1 = heaviside_step(x1 - d)` and `lambda2 = heaviside_step(x2 - d)`
from the current gaps and the distance threshold. -/
def classify (gapLF1 gapF1F2 d : ℚ) : ℕ × ℕ :=
  (heaviside_step (gapLF1 - d), heaviside_step (gapF1F2 - d))

/-- `circular_distance` from the three ring variants:
`min(|p1 - p2|, track_length - |p1 - p2|)`. -/
def circular_distance (L pos1 pos2 : ℚ) : ℚ :=
  min |pos1 - pos2| (L - |pos1 - pos2|)

/-- Vehicle state shared by all variants: positions `x0` (L), `y1` (F1),
`y2` (F2), stored gaps `x1` (L–F1), `x2` (F1–F2), velocities `v0 v1 v2`. -/
structure SimState where
  (x0 y1 y2 x1 x2 v0 v1 v2 : ℚ)
deriving DecidableEq

/-! ## Line variant (`src/Line/model.py`) -/

/-- Parameters of the Line variant: the eight mode coefficients and the
distance threshold `d`.  (`dt = 5`, `target_distance = 30`,
`distance_kp = 0.15`, `max_accel = 3`, `max_decel = 5`, `min_speed = 5`,
`min_safe_distance = 5` are literals in `run_simulation`.) -/
structure LineParams where
  (a11 a10 a01 a00 b1 b0 c1 c0 d : ℚ)
deriving DecidableEq

/-- Gaps recorded by the Line `__init__`: `x1 = x0 - y1`, `x2 = y1 - y2`
(no sign check). -/
def lineInitGaps (x0 y1 y2 : ℚ) : ℚ × ℚ := (x0 - y1, y1 - y2)

/-- One iteration of the Line `run_simulation` loop up to (and including)
re-computing the distances, i.e. before the minimum-safe-distance fix:
mode bits, base accelerations, proportional distance control, clamping to
`[-5, 3]` via `max(min(a, 3), -5)`, Euler velocity update with `dt = 5`,
speed floor `5`, position update, gap recomputation. -/
def lineIntegrate (p : LineParams) (s : SimState) : SimState :=
  let l1 : ℚ := heaviside_step (s.x1 - p.d)
  let l2 : ℚ := heaviside_step (s.x2 - p.d)
  let base1 := p.a11 * l1 * l2 + p.a10 * l1 * (1 - l2)
      - p.a01 * (1 - l1) * l2 - p.a00 * (1 - l1) * (1 - l2)
  let base2 := p.b1 * l2 - p.b0 * (1 - l2)
  let base0 := -p.c1 * l1 + p.c0 * (1 - l1)
  let distControl1 := (15 / 100) * (30 - s.x1)
  let distControl2 := (15 / 100) * (30 - s.x2)
  let accel0 := max (min base0 3) (-5)
  let accel1 := max (min (base1 - distControl1) 3) (-5)
  let accel2 := max (min (base2 - distControl2) 3) (-5)
  let v0 := max (s.v0 + accel0 * 5) 5
  let v1 := max (s.v1 + accel1 * 5) 5
  let v2 := max (s.v2 + accel2 * 5) 5
  let x0 := s.x0 + v0 * 5
  let y1 := s.y1 + v1 * 5
  let y2 := s.y2 + v2 * 5
  ⟨x0, y1, y2, x0 - y1, y1 - y2, v0, v1, v2⟩

/-- The Line minimum-safe-distance enforcement at the end of a step: if a
recomputed gap is below `5`, the trailing vehicle is repositioned `5`
behind its leader, the gap is set to `5`, and the trailing velocity is
capped by the leader's.  The F1–F2 check tests the gap recomputed before
the L–F1 fix (as in the source), while the F2 reposition uses the possibly
corrected `y1` and `v1`. -/
def lineCorrect (t : SimState) : SimState :=
  let y1 := if t.x1 < 5 then t.x0 - 5 else t.y1
  let x1 := if t.x1 < 5 then (5 : ℚ) else t.x1
  let v1 := if t.x1 < 5 then min t.v1 t.v0 else t.v1
  let y2 := if t.x2 < 5 then y1 - 5 else t.y2
  let x2 := if t.x2 < 5 then (5 : ℚ) else t.x2
  let v2 := if t.x2 < 5 then min t.v2 v1 else t.v2
  ⟨t.x0, y1, y2, x1, x2, t.v0, v1, v2⟩

/-- One full step of the Line variant. -/
def lineStep (p : LineParams) (s : SimState) : SimState :=
  lineCorrect (lineIntegrate p s)

/-- Default Line parameters from `__init__`. -/
def lineDefaultParams : LineParams :=
  ⟨2, 3/2, 1, 1/2, 2, 1, 3/2, 1, 30⟩

/-! ## Safety governor of the ring variants

`apply_safety_constraints` is textually identical in
`ring_F1_onlylookforward/model.py`, `ring2_BasedOnLine/model.py` and
`White Noise/model.py`: clip each acceleration to `[-4, 3]` with
`np.clip`, then if a follower's stored gap is below
`emergency_distance = d * 0.6` cap that follower's acceleration at
`-3.0` by `min`. -/

/-- `apply_safety_constraints(accelerations)` of the three ring variants,
with the instance fields `d`, `x1`, `x2` passed explicitly. -/
def apply_safety_constraints (d x1 x2 : ℚ) (a : ℚ × ℚ × ℚ) : ℚ × ℚ × ℚ :=
  let accel0 := npClip a.1 (-4) 3
  let accel1 := npClip a.2.1 (-4) 3
  let accel2 := npClip a.2.2 (-4) 3
  let emergency := d * (6/10)
  let accel1 := if x1 < emergency then min accel1 (-3) else accel1
  let accel2 := if x2 < emergency then min accel2 (-3) else accel2
  (accel0, accel1, accel2)

/-- `calculate_accelerations` of the three ring variants:
`(target - current) * response_factor` componentwise. -/
def calculate_accelerations (rf : ℚ) (target current : ℚ × ℚ × ℚ) : ℚ × ℚ × ℚ :=
  ((target.1 - current.1) * rf,
   (target.2.1 - current.2.1) * rf,
   (target.2.2 - current.2.2) * rf)

/-! ## ring_F1_onlylookforward variant -/

/-- Parameters of the `ring_F1_onlylookforward` variant: track length,
threshold `d`, base velocity `v`, coefficients, response factor, `dt`. -/
structure RingF1Params where
  (L d v a11 a0 b1 b0 c1 c0 rf dt : ℚ)
deriving DecidableEq

/-- `calculate_target_velocities` of `ring_F1_onlylookforward`: targets
relative to the base velocity `v`; F1 looks only at `lambda1`. -/
def ringF1Targets (p : RingF1Params) (l1 l2 : ℕ) : ℚ × ℚ × ℚ :=
  let target_v1 := p.v + p.a11 * (l1 : ℚ) - p.a0 * (1 - (l1 : ℚ))
  let target_v2 := p.v + p.b1 * (l2 : ℚ) + p.b0 * (1 - (l2 : ℚ))
  let target_v0 := p.v + p.c1 * (l1 : ℚ) + p.c0 * (1 - (l1 : ℚ))
  (target_v0, target_v1, target_v2)

/-- One iteration of the `ring_F1_onlylookforward` `run_simulation` loop:
lambdas, targets, accelerations, safety constraints, Euler velocity
update, `np.clip` of velocities to `[5, 35]`, position update modulo the
track length, gap recomputation. -/
def ringF1Step (p : RingF1Params) (s : SimState) : SimState :=
  let l1 := heaviside_step (s.x1 - p.d)
  let l2 := heaviside_step (s.x2 - p.d)
  let target := ringF1Targets p l1 l2
  let accel := calculate_accelerations p.rf target (s.v0, s.v1, s.v2)
  let safe := apply_safety_constraints p.d s.x1 s.x2 accel
  let v0 := npClip (s.v0 + safe.1 * p.dt) 5 35
  let v1 := npClip (s.v1 + safe.2.1 * p.dt) 5 35
  let v2 := npClip (s.v2 + safe.2.2 * p.dt) 5 35
  let x0 := pymod (s.x0 + v0 * p.dt) p.L
  let y1 := pymod (s.y1 + v1 * p.dt) p.L
  let y2 := pymod (s.y2 + v2 * p.dt) p.L
  ⟨x0, y1, y2, circular_distance p.L x0 y1, circular_distance p.L y1 y2, v0, v1, v2⟩

/-! ## White Noise variant -/

/-- Parameters of the `White Noise` variant: track length, threshold,
coefficients (targets are relative to the current velocity, no base
velocity), response factor, `dt`, `t_max`, and the delayed-noise
configuration. -/
structure WNParams where
  (L d a11 a0 b1 b0 c1 c0 rf dt tmax : ℚ)
  (enable_L_noise : Bool)
  (noise_std noise_start_time : ℚ)
deriving DecidableEq

/-- `generate_white_noise(current_time)`: when noise is enabled and the
simulated time has reached `noise_start_time`, the Gaussian draw
(abstracted as the input `sample`) is clipped to `±3·noise_std` and the
`noise_active` flag is set; otherwise the result is `0` and the flag is
unchanged. -/
def generate_white_noise (p : WNParams) (active : Bool) (current_time sample : ℚ) :
    ℚ × Bool :=
  if p.enable_L_noise = true ∧ p.noise_start_time ≤ current_time then
    (npClip sample (-(3 * p.noise_std)) (3 * p.noise_std), true)
  else
    (0, active)

/-- `calculate_target_velocities` of the `White Noise` variant: targets
relative to each vehicle's current velocity. -/
def wnTargets (p : WNParams) (v0 v1 v2 : ℚ) (l1 l2 : ℕ) : ℚ × ℚ × ℚ :=
  let target_v1 := v1 + p.a11 * (l1 : ℚ) - p.a0 * (1 - (l1 : ℚ))
  let target_v2 := v2 + p.b1 * (l2 : ℚ) - p.b0 * (1 - (l2 : ℚ))
  let target_v0 := v0 - p.c1 * (l1 : ℚ) + p.c0 * (1 - (l1 : ℚ))
  (target_v0, target_v1, target_v2)

/-- Vehicle state of the `White Noise` variant: the shared state plus the
`noise_active` flag mutated by `generate_white_noise`. -/
structure WNState where
  (s : SimState)
  (noise_active : Bool)
deriving DecidableEq

/-- The values a `White Noise` step appends to the per-step history
fields. -/
structure WNRecord where
  (lambda1 lambda2 : ℕ)
  (mode : ℕ × ℕ)
  (target_v0 target_v1 target_v2 : ℚ)
  (accel_0 accel_1 accel_2 : ℚ)
  (L_noise L_speed_without_noise : ℚ)
  (noise_active_flag : Bool)
deriving DecidableEq

/-- One iteration of the `White Noise` `run_simulation` loop: lambdas,
targets, accelerations, safety constraints, Euler update of `v1 v2`,
noise-free update `v0_without_noise` of the Lead, additive clipped noise
on the Lead, `np.clip` of all velocities to `[5, 80]`, position update
modulo the track length, gap recomputation.  Returns the new state and
the per-step record. -/
def wnStep (p : WNParams) (w : WNState) (current_time sample : ℚ) :
    WNState × WNRecord :=
  let s := w.s
  let l1 := heaviside_step (s.x1 - p.d)
  let l2 := heaviside_step (s.x2 - p.d)
  let target := wnTargets p s.v0 s.v1 s.v2 l1 l2
  let accel := calculate_accelerations p.rf target (s.v0, s.v1, s.v2)
  let safe := apply_safety_constraints p.d s.x1 s.x2 accel
  let v1 := s.v1 + safe.2.1 * p.dt
  let v2 := s.v2 + safe.2.2 * p.dt
  let v0_without_noise := s.v0 + safe.1 * p.dt
  let noise := generate_white_noise p w.noise_active current_time sample
  let v0 := v0_without_noise + noise.1
  let v0 := npClip v0 5 80
  let v1 := npClip v1 5 80
  let v2 := npClip v2 5 80
  let x0 := pymod (s.x0 + v0 * p.dt) p.L
  let y1 := pymod (s.y1 + v1 * p.dt) p.L
  let y2 := pymod (s.y2 + v2 * p.dt) p.L
  (⟨⟨x0, y1, y2, circular_distance p.L x0 y1, circular_distance p.L y1 y2,
      v0, v1, v2⟩, noise.2⟩,
   ⟨l1, l2, (l1, l2), target.1, target.2.1, target.2.2,
    safe.1, safe.2.1, safe.2.2, noise.1, v0_without_noise, noise.2⟩)

/-- The `White Noise` history: the fixed `time` grid plus one list per
recorded field.  Positions, gaps and velocities are seeded with one
initial record at construction; the per-step fields start empty. -/
structure WNHistory where
  (time : List ℚ)
  (x0 y1 y2 x1 x2 v0 v1 v2 : List ℚ)
  (lambda1 lambda2 : List ℕ)
  (mode : List (ℕ × ℕ))
  (target_v0 target_v1 target_v2 : List ℚ)
  (accel_0 accel_1 accel_2 : List ℚ)
  (L_noise L_speed_without_noise : List ℚ)
  (noise_active_flag : List Bool)
deriving DecidableEq

/-- `np.arange(0, tmax, dt)` for `dt > 0`: the `⌈tmax / dt⌉` points
`0, dt, 2·dt, …`. -/
def arange (tmax dt : ℚ) : List ℚ :=
  (List.range (⌈tmax / dt⌉.toNat)).map (fun i => (i : ℚ) * dt)

/-- The `White Noise` history at construction: `time = np.arange(0, t_max,
dt)` is fixed once and for all; positions, gaps and velocities start with
their initial record; every other field starts empty. -/
def wnInitHistory (p : WNParams) (s : SimState) : WNHistory :=
  ⟨arange p.tmax p.dt,
   [s.x0], [s.y1], [s.y2], [s.x1], [s.x2], [s.v0], [s.v1], [s.v2],
   [], [], [], [], [], [], [], [], [], [], [], []⟩

/-- Appending one step's data to the `White Noise` history: the new state
and the step record each contribute exactly one entry to every field
except `time`, which is never touched by the loop. -/
def wnAppend (h : WNHistory) (s : SimState) (r : WNRecord) : WNHistory :=
  ⟨h.time,
   h.x0 ++ [s.x0], h.y1 ++ [s.y1], h.y2 ++ [s.y2],
   h.x1 ++ [s.x1], h.x2 ++ [s.x2],
   h.v0 ++ [s.v0], h.v1 ++ [s.v1], h.v2 ++ [s.v2],
   h.lambda1 ++ [r.lambda1], h.lambda2 ++ [r.lambda2], h.mode ++ [r.mode],
   h.target_v0 ++ [r.target_v0], h.target_v1 ++ [r.target_v1],
   h.target_v2 ++ [r.target_v2],
   h.accel_0 ++ [r.accel_0], h.accel_1 ++ [r.accel_1], h.accel_2 ++ [r.accel_2],
   h.L_noise ++ [r.L_noise],
   h.L_speed_without_noise ++ [r.L_speed_without_noise],
   h.noise_active_flag ++ [r.noise_active_flag]⟩

/-- `n` iterations of the `White Noise` loop starting at step index `i`
(the simulated time of step `i` is `i * dt`, matching
`self.time[t_idx]`), consuming one abstract Gaussian draw per step. -/
def wnRunAux (p : WNParams) (samples : ℕ → ℚ) :
    ℕ → ℕ → WNState × WNHistory → WNState × WNHistory
  | _, 0, wh => wh
  | i, n + 1, (w, h) =>
      let r := wnStep p w ((i : ℚ) * p.dt) (samples i)
      wnRunAux p samples (i + 1) n (r.1, wnAppend h r.1.s r.2)

/-- A full `White Noise` construction-plus-run: initial gaps from
`circular_distance`, then `len(time) - 1` loop iterations. -/
def wnRun (p : WNParams) (x0 y1 y2 v0 v1 v2 : ℚ) (samples : ℕ → ℚ) :
    WNState × WNHistory :=
  let s : SimState :=
    ⟨x0, y1, y2, circular_distance p.L x0 y1, circular_distance p.L y1 y2,
     v0, v1, v2⟩
  wnRunAux p samples 0 ((arange p.tmax p.dt).length - 1)
    (⟨s, false⟩, wnInitHistory p s)

/-- Modelled from the spec: the seeded generator behind
`np.random.seed(noise_seed)` followed by the `np.random.normal` draws is
library code outside the repository; the spec requires only "a
deterministic seeded generator".  It is modelled as a linear congruential
stream: a pure function of the seed. -/
def seedStream (seed : ℕ) : ℕ → ℚ :=
  fun i =>
    (((Nat.rec seed (fun _ st => (1103515245 * st + 12345) % 2147483648)
        (i + 1) : ℕ) : ℚ) / 2147483648 - 1/2) * 6

/-- A seeded `White Noise` construction-plus-run, as performed by an
instance built with `noise_seed = seed` and run in isolation: the
Gaussian stream is the deterministic function of the seed. -/
def wnSeededRun (p : WNParams) (x0 y1 y2 v0 v1 v2 : ℚ) (seed : ℕ) :
    WNState × WNHistory :=
  wnRun p x0 y1 y2 v0 v1 v2 (seedStream seed)

/-! ## ring2_BasedOnLine variant -/

/-- Parameters of the `ring2_BasedOnLine` variant: four F1 mode
coefficients, base velocity `v`, no seed parameter (its constructor
accepts none). -/
structure Ring2Params where
  (L d v a11 a10 a01 a00 b1 b0 c1 c0 rf dt : ℚ)
deriving DecidableEq

/-- `calculate_target_velocities` of `ring2_BasedOnLine`: the four-branch
F1 formula relative to the base velocity `v`. -/
def ring2Targets (p : Ring2Params) (l1 l2 : ℕ) : ℚ × ℚ × ℚ :=
  let target_v1 := p.v + p.a11 * (l1 : ℚ) * (l2 : ℚ)
      + p.a10 * (l1 : ℚ) * (1 - (l2 : ℚ))
      + p.a01 * (1 - (l1 : ℚ)) * (l2 : ℚ)
      + p.a00 * (1 - (l1 : ℚ)) * (1 - (l2 : ℚ))
  let target_v2 := p.v + p.b1 * (l2 : ℚ) + p.b0 * (1 - (l2 : ℚ))
  let target_v0 := p.v + p.c1 * (l1 : ℚ) + p.c0 * (1 - (l1 : ℚ))
  (target_v0, target_v1, target_v2)

/-- One step's draws from the process-global `np.random` inside
`add_realistic_noise`: one Gaussian(0, 0.2) per vehicle, plus the extra
Gaussian(0, 1) added to the Lead with probability 5% (`extra` is `0` on
the 95% branch).  The draws are abstracted as explicit inputs; the
constructor offers no seed that would determine them. -/
structure Ring2Noise where
  (d0 d1 d2 extra : ℚ)
deriving DecidableEq

/-- `add_realistic_noise(accelerations)` of `ring2_BasedOnLine`: the
noise draws are added to the safety-constrained accelerations, after the
clamp and the emergency override, with no re-clamping. -/
def add_realistic_noise (a : ℚ × ℚ × ℚ) (w : Ring2Noise) : ℚ × ℚ × ℚ :=
  (a.1 + w.d0 + w.extra, a.2.1 + w.d1, a.2.2 + w.d2)

/-- The values a `ring2_BasedOnLine` step appends to the per-step history
fields (targets and the final, noise-carrying accelerations). -/
structure Ring2Record where
  (lambda1 lambda2 : ℕ)
  (mode : ℕ × ℕ)
  (target_v0 target_v1 target_v2 : ℚ)
  (accel_0 accel_1 accel_2 : ℚ)
deriving DecidableEq

/-- One iteration of the `ring2_BasedOnLine` `run_simulation` loop:
lambdas, targets, accelerations, safety constraints, realistic noise
added after the safety constraints, Euler velocity update using the
noisy accelerations, `np.clip` of velocities to `[5, 35]`, position
update modulo the track length, gap recomputation.  The recorded
`accel_i` are the final (noisy, unclamped) accelerations. -/
def ring2Step (p : Ring2Params) (s : SimState) (w : Ring2Noise) :
    SimState × Ring2Record :=
  let l1 := heaviside_step (s.x1 - p.d)
  let l2 := heaviside_step (s.x2 - p.d)
  let target := ring2Targets p l1 l2
  let accel := calculate_accelerations p.rf target (s.v0, s.v1, s.v2)
  let safe := apply_safety_constraints p.d s.x1 s.x2 accel
  let final := add_realistic_noise safe w
  let v0 := npClip (s.v0 + final.1 * p.dt) 5 35
  let v1 := npClip (s.v1 + final.2.1 * p.dt) 5 35
  let v2 := npClip (s.v2 + final.2.2 * p.dt) 5 35
  let x0 := pymod (s.x0 + v0 * p.dt) p.L
  let y1 := pymod (s.y1 + v1 * p.dt) p.L
  let y2 := pymod (s.y2 + v2 * p.dt) p.L
  (⟨x0, y1, y2, circular_distance p.L x0 y1, circular_distance p.L y1 y2,
     v0, v1, v2⟩,
   ⟨l1, l2, (l1, l2), target.1, target.2.1, target.2.2,
    final.1, final.2.1, final.2.2⟩)

/-- `n` iterations of the `ring2_BasedOnLine` loop, collecting the
per-step state and record in order: the history log of the run.  The
noise stream is whatever the process-global RNG happens to produce. -/
def ring2Run (p : Ring2Params) (noises : ℕ → Ring2Noise) :
    ℕ → SimState → List (SimState × Ring2Record)
  | 0, _ => []
  | n + 1, s =>
      let r := ring2Step p s (noises 0)
      r :: ring2Run p (fun i => noises (i + 1)) n r.1

/-- Default `ring2_BasedOnLine` parameters from `__init__`. -/
def ring2DefaultParams : Ring2Params :=
  ⟨2000, 40, 20, 1/2, -1, 3/2, -2, 1, -3/2, -3/10, 1/2, 3/10, 2⟩

/-! ## Concrete scenario inputs -/

/-- The lengths of the twenty list-valued history fields (`time`, a fixed
grid, excluded). -/
def listFieldLengths (h : WNHistory) : List ℕ :=
  [h.x0.length, h.y1.length, h.y2.length, h.x1.length, h.x2.length,
   h.v0.length, h.v1.length, h.v2.length,
   h.lambda1.length, h.lambda2.length, h.mode.length,
   h.target_v0.length, h.target_v1.length, h.target_v2.length,
   h.accel_0.length, h.accel_1.length, h.accel_2.length,
   h.L_noise.length, h.L_speed_without_noise.length,
   h.noise_active_flag.length]

/-- A Line state with a small L–F1 gap (`x1 = 20 ≤ d`), used to exhibit
the missing speed ceiling: the Lead accelerates from `v0 = 80`. -/
def lineFastState : SimState := ⟨100, 80, 60, 20, 20, 80, 20, 20⟩

/-- A Line post-integration state with both recomputed gaps below the
minimum safe distance. -/
def lineCloseState : SimState := ⟨100, 97, 60, 3, 4, 10, 20, 30⟩

/-- White-Noise parameters for the zero-coefficient Ring scenario:
track length 1000, threshold 30, all six mode coefficients zero, noise
disabled, `dt = 5`. -/
def wnZeroCoeffParams : WNParams :=
  ⟨1000, 30, 0, 0, 0, 0, 0, 0, 3/10, 5, 10, false, 1, 150⟩

/-- `ring_F1_onlylookforward` parameters for the zero-coefficient Ring
scenario: base velocity 20 (its default, equal to the initial velocity),
all six mode coefficients zero, `dt = 5`. -/
def ringF1ZeroCoeffParams : RingF1Params :=
  ⟨1000, 30, 20, 0, 0, 0, 0, 0, 0, 3/10, 5⟩

/-- The Ring scenario state: positions `[200, 150, 100]` on track length
1000, gaps 50 and 50, equal velocities 20. -/
def ringScenarioState : SimState := ⟨200, 150, 100, 50, 50, 20, 20, 20⟩

/-- White-Noise parameters with noise enabled: `std = 5`, start time 150
(the spec's disturbance-gating scenario). -/
def wnNoiseParams : WNParams :=
  ⟨6000, 40, 1/2, 3/10, 1, 3/2, 3/10, 1/2, 3/10, 2, 160, true, 5, 150⟩

/-- Small White-Noise parameters (`t_max = 4`, `dt = 2`, so `time` has
two grid points and the loop runs exactly one step). -/
def wnSmallParams : WNParams :=
  ⟨1000, 30, 1/2, 3/10, 1, 3/2, 3/10, 1/2, 3/10, 2, 4, false, 1, 150⟩

/-- The `ring2_BasedOnLine` state produced by its default construction:
positions `[1000, 960, 930]` on track length 2000, gaps from
`circular_distance`, velocities at the base velocity 20. -/
def ring2InitState : SimState :=
  ⟨1000, 960, 930, circular_distance 2000 1000 960,
   circular_distance 2000 960 930, 20, 20, 20⟩

/-- A `ring2_BasedOnLine` state whose L–F1 gap (10) is below the
emergency distance `40 * 0.6 = 24`. -/
def ring2EmergencyState : SimState := ⟨1000, 990, 930, 10, 60, 20, 20, 20⟩

/-! ## Helper lemmas -/

lemma heaviside_eq_one (x : ℚ) : heaviside_step x = 1 ↔ 0 < x := by
  unfold heaviside_step; split_ifs with h <;> simp [h]

lemma heaviside_eq_zero (x : ℚ) : heaviside_step x = 0 ↔ x ≤ 0 := by
  unfold heaviside_step
  split_ifs with h
  · simp only [one_ne_zero, false_iff, not_le]
    exact h
  · simp only [true_iff]
    exact le_of_not_lt h

lemma npClip_le_hi (x lo hi : ℚ) : npClip x lo hi ≤ hi := min_le_right _ _

lemma lo_le_npClip (x lo hi : ℚ) (h : lo ≤ hi) : lo ≤ npClip x lo hi :=
  le_min (le_max_right _ _) h

lemma lineIntegrate_speed_floor (p : LineParams) (s : SimState) :
    5 ≤ (lineIntegrate p s).v0 ∧ 5 ≤ (lineIntegrate p s).v1 ∧
    5 ≤ (lineIntegrate p s).v2 := by
  refine ⟨?_, ?_, ?_⟩ <;> simp [lineIntegrate]

lemma lineCorrect_speed_floor (t : SimState) (h0 : 5 ≤ t.v0) (h1 : 5 ≤ t.v1)
    (h2 : 5 ≤ t.v2) :
    5 ≤ (lineCorrect t).v0 ∧ 5 ≤ (lineCorrect t).v1 ∧
    5 ≤ (lineCorrect t).v2 := by
  have hv1 : 5 ≤ (lineCorrect t).v1 := by
    simp only [lineCorrect]
    split_ifs with h
    · exact le_min h1 h0
    · exact h1
  refine ⟨h0, hv1, ?_⟩
  by_cases hx2 : t.x2 < 5
  · have hv2 : (lineCorrect t).v2 = min t.v2 (lineCorrect t).v1 := by
      simp [lineCorrect, hx2]
    rw [hv2]
    exact le_min h2 hv1
  · have hv2 : (lineCorrect t).v2 = t.v2 := by
      simp [lineCorrect, hx2]
    rw [hv2]
    exact h2

lemma wnAppend_lengths (h : WNHistory) (s : SimState) (r : WNRecord) :
    (wnAppend h s r).time = h.time ∧
    listFieldLengths (wnAppend h s r)
      = (listFieldLengths h).map (fun k => k + 1) := by
  simp [wnAppend, listFieldLengths]

lemma wnRunAux_lengths (p : WNParams) (samples : ℕ → ℚ) :
    ∀ (n i : ℕ) (w : WNState) (h : WNHistory),
      (wnRunAux p samples i n (w, h)).2.time = h.time ∧
      listFieldLengths (wnRunAux p samples i n (w, h)).2
        = (listFieldLengths h).map (fun k => k + n) := by
  intro n
  induction n with
  | zero =>
      intro i w h
      simp [wnRunAux, listFieldLengths]
  | succ n ih =>
      intro i w h
      set r := wnStep p w ((i : ℚ) * p.dt) (samples i) with hr
      have H := ih (i + 1) r.1 (wnAppend h r.1.s r.2)
      have A := wnAppend_lengths h r.1.s r.2
      constructor
      · calc (wnRunAux p samples i (n + 1) (w, h)).2.time
            = (wnRunAux p samples (i + 1) n (r.1, wnAppend h r.1.s r.2)).2.time := rfl
          _ = (wnAppend h r.1.s r.2).time := H.1
          _ = h.time := A.1
      · calc listFieldLengths (wnRunAux p samples i (n + 1) (w, h)).2
            = listFieldLengths
                (wnRunAux p samples (i + 1) n (r.1, wnAppend h r.1.s r.2)).2 := rfl
          _ = (listFieldLengths (wnAppend h r.1.s r.2)).map (fun k => k + n) := H.2
          _ = ((listFieldLengths h).map (fun k => k + 1)).map (fun k => k + n) := by
              rw [A.2]
          _ = (listFieldLengths h).map (fun k => k + (n + 1)) := by
              rw [List.map_map]
              congr 1
              funext k
              simp [Function.comp]
              omega

/-! ## Claim theorems -/

/-- C1: the mode bits are computed by strict comparison in every variant:
`λ = 1` iff the gap strictly exceeds the threshold, `λ = 0` iff it does
not, and a gap exactly equal to the threshold yields `λ = 0`; the
recorded lambdas of a step are exactly this pure function of the current
gaps and threshold (no memory). -/
theorem classify_strict_threshold (g1 g2 d : ℚ) :
    ((classify g1 g2 d).1 = 1 ↔ d < g1) ∧
    ((classify g1 g2 d).1 = 0 ↔ g1 ≤ d) ∧
    ((classify g1 g2 d).2 = 1 ↔ d < g2) ∧
    ((classify g1 g2 d).2 = 0 ↔ g2 ≤ d) ∧
    (g1 = d → (classify g1 g2 d).1 = 0) ∧
    (g2 = d → (classify g1 g2 d).2 = 0) ∧
    (∀ (p : WNParams) (w : WNState) (t a : ℚ),
      (wnStep p w t a).2.lambda1 = (classify w.s.x1 w.s.x2 p.d).1 ∧
      (wnStep p w t a).2.lambda2 = (classify w.s.x1 w.s.x2 p.d).2) ∧
    (∀ (p : Ring2Params) (s : SimState) (w : Ring2Noise),
      (ring2Step p s w).2.lambda1 = (classify s.x1 s.x2 p.d).1 ∧
      (ring2Step p s w).2.lambda2 = (classify s.x1 s.x2 p.d).2) := by
  have h1 := heaviside_eq_one (g1 - d)
  have h0 := heaviside_eq_zero (g1 - d)
  have h1' := heaviside_eq_one (g2 - d)
  have h0' := heaviside_eq_zero (g2 - d)
  refine ⟨?_, ?_, ?_, ?_, ?_, ?_, ?_, ?_⟩
  · rw [show (classify g1 g2 d).1 = heaviside_step (g1 - d) from rfl, h1]
    constructor <;> intro h <;> linarith
  · rw [show (classify g1 g2 d).1 = heaviside_step (g1 - d) from rfl, h0]
    constructor <;> intro h <;> linarith
  · rw [show (classify g1 g2 d).2 = heaviside_step (g2 - d) from rfl, h1']
    constructor <;> intro h <;> linarith
  · rw [show (classify g1 g2 d).2 = heaviside_step (g2 - d) from rfl, h0']
    constructor <;> intro h <;> linarith
  · intro h
    rw [show (classify g1 g2 d).1 = heaviside_step (g1 - d) from rfl, h0]
    linarith
  · intro h
    rw [show (classify g1 g2 d).2 = heaviside_step (g2 - d) from rfl, h0']
    linarith
  · intro p w t a
    exact ⟨rfl, rfl⟩
  · intro p s w
    exact ⟨rfl, rfl⟩

/-- C1 witness: at a gap exactly equal to the threshold both lambdas are
0, and the equal-to-threshold hypotheses are discharged at `30 = 30`. -/
theorem classify_strict_threshold_witness :
    (classify 30 50 30).1 = 0 ∧ (classify 50 30 30).2 = 0 :=
  ⟨(classify_strict_threshold 30 50 30).2.2.2.2.1 rfl,
   (classify_strict_threshold 50 30 30).2.2.2.2.2.1 rfl⟩

/-- C2: on the Line topology every post-step recorded gap is at least the
minimum safe distance 5; whenever a recomputed gap is below 5 the
trailing vehicle is repositioned exactly 5 behind its leader, the
recorded gap is set to exactly 5, and the trailing velocity is capped by
its leader's post-step velocity. -/
theorem line_min_safe_gap (p : LineParams) (s t : SimState) :
    5 ≤ (lineStep p s).x1 ∧ 5 ≤ (lineStep p s).x2 ∧
    (t.x1 < 5 → (lineCorrect t).x1 = 5 ∧ (lineCorrect t).y1 = t.x0 - 5 ∧
      (lineCorrect t).x0 - (lineCorrect t).y1 = 5 ∧
      (lineCorrect t).v1 ≤ (lineCorrect t).v0) ∧
    (t.x2 < 5 → (lineCorrect t).x2 = 5 ∧
      (lineCorrect t).y2 = (lineCorrect t).y1 - 5 ∧
      (lineCorrect t).v2 ≤ (lineCorrect t).v1) := by
  refine ⟨?_, ?_, ?_, ?_⟩
  · show 5 ≤ (lineCorrect (lineIntegrate p s)).x1
    simp only [lineCorrect]
    split_ifs with h
    · exact le_refl 5
    · exact le_of_not_lt h
  · show 5 ≤ (lineCorrect (lineIntegrate p s)).x2
    simp only [lineCorrect]
    split_ifs with h
    · exact le_refl 5
    · exact le_of_not_lt h
  · intro h
    refine ⟨by simp [lineCorrect, h], by simp [lineCorrect, h], ?_, ?_⟩
    · simp [lineCorrect, h]
    · simp only [lineCorrect, h, if_true]
      exact min_le_right _ _
  · intro h
    refine ⟨by simp [lineCorrect, h], by simp [lineCorrect, h], ?_⟩
    simp only [lineCorrect, h, if_true]
    exact min_le_right _ _

/-- C2 witness: a post-integration state with both recomputed gaps below
5 (`x1 = 3`, `x2 = 4`) is corrected to gaps exactly 5 with the follower
velocities capped, and a full step's recorded gaps are at least 5. -/
theorem line_min_safe_gap_witness :
    5 ≤ (lineStep lineDefaultParams lineCloseState).x1 ∧
    (lineCorrect lineCloseState).x1 = 5 ∧
    (lineCorrect lineCloseState).v1 ≤ (lineCorrect lineCloseState).v0 ∧
    (lineCorrect lineCloseState).x2 = 5 ∧
    (lineCorrect lineCloseState).v2 ≤ (lineCorrect lineCloseState).v1 := by
  have H := line_min_safe_gap lineDefaultParams lineCloseState lineCloseState
  have h1 : lineCloseState.x1 < 5 := by norm_num [lineCloseState]
  have h2 : lineCloseState.x2 < 5 := by norm_num [lineCloseState]
  exact ⟨H.1, (H.2.2.1 h1).1, (H.2.2.1 h1).2.2.2,
    (H.2.2.2 h2).1, (H.2.2.2 h2).2.2⟩

/-- C3 counterexample: the Line variant has no speed ceiling.  From a
state with `v0 = 80` and a small L–F1 gap (`λ1 = 0`, so the Lead
accelerates by `c0 = 1`), one step leaves the Lead at `v0 = 85`,
exceeding `80`, the largest configured `maxSpeed` of any variant; the
Line update applies only the floor `max(v, 5)`. -/
theorem line_no_speed_ceiling :
    (lineStep lineDefaultParams lineFastState).v0 = 85 ∧
    ¬ ((lineStep lineDefaultParams lineFastState).v0 ≤ 80) := by
  norm_num [lineStep, lineIntegrate, lineCorrect, lineDefaultParams,
    lineFastState, heaviside_step, min_def, max_def]

/-- C3 amended: post-step velocities satisfy both configured speed bounds
in the three ring variants (`[5, 35]` for `ring_F1_onlylookforward` and
`ring2_BasedOnLine`, `[5, 80]` for `White Noise`); the Line variant
enforces only the floor `minSpeed = 5` (no ceiling exists there). -/
theorem post_step_speed_bounds (pL : LineParams) (sL : SimState)
    (pR : RingF1Params) (sR : SimState) (p2 : Ring2Params) (s2 : SimState)
    (w2 : Ring2Noise) (pW : WNParams) (sW : WNState) (t a : ℚ) :
    (5 ≤ (lineStep pL sL).v0 ∧ 5 ≤ (lineStep pL sL).v1 ∧
      5 ≤ (lineStep pL sL).v2) ∧
    (5 ≤ (ringF1Step pR sR).v0 ∧ (ringF1Step pR sR).v0 ≤ 35 ∧
      5 ≤ (ringF1Step pR sR).v1 ∧ (ringF1Step pR sR).v1 ≤ 35 ∧
      5 ≤ (ringF1Step pR sR).v2 ∧ (ringF1Step pR sR).v2 ≤ 35) ∧
    (5 ≤ (ring2Step p2 s2 w2).1.v0 ∧ (ring2Step p2 s2 w2).1.v0 ≤ 35 ∧
      5 ≤ (ring2Step p2 s2 w2).1.v1 ∧ (ring2Step p2 s2 w2).1.v1 ≤ 35 ∧
      5 ≤ (ring2Step p2 s2 w2).1.v2 ∧ (ring2Step p2 s2 w2).1.v2 ≤ 35) ∧
    (5 ≤ (wnStep pW sW t a).1.s.v0 ∧ (wnStep pW sW t a).1.s.v0 ≤ 80 ∧
      5 ≤ (wnStep pW sW t a).1.s.v1 ∧ (wnStep pW sW t a).1.s.v1 ≤ 80 ∧
      5 ≤ (wnStep pW sW t a).1.s.v2 ∧ (wnStep pW sW t a).1.s.v2 ≤ 80) := by
  have h35 : (5 : ℚ) ≤ 35 := by norm_num
  have h80 : (5 : ℚ) ≤ 80 := by norm_num
  refine ⟨?_, ?_, ?_, ?_⟩
  · exact lineCorrect_speed_floor _ (lineIntegrate_speed_floor pL sL).1
      (lineIntegrate_speed_floor pL sL).2.1 (lineIntegrate_speed_floor pL sL).2.2
  · exact ⟨lo_le_npClip _ _ _ h35, npClip_le_hi _ _ _,
      lo_le_npClip _ _ _ h35, npClip_le_hi _ _ _,
      lo_le_npClip _ _ _ h35, npClip_le_hi _ _ _⟩
  · exact ⟨lo_le_npClip _ _ _ h35, npClip_le_hi _ _ _,
      lo_le_npClip _ _ _ h35, npClip_le_hi _ _ _,
      lo_le_npClip _ _ _ h35, npClip_le_hi _ _ _⟩
  · exact ⟨lo_le_npClip _ _ _ h80, npClip_le_hi _ _ _,
      lo_le_npClip _ _ _ h80, npClip_le_hi _ _ _,
      lo_le_npClip _ _ _ h80, npClip_le_hi _ _ _⟩

/-- C4: the disturbance source returns exactly 0 when disabled or before
the start time; otherwise it returns the Gaussian draw clipped to
`[-3·std, 3·std]`, so (for `std ≥ 0`) every active value lies in that
interval; the recorded `L_noise` of a step is exactly this function's
value. -/
theorem white_noise_gating (p : WNParams) (active : Bool) (t sample : ℚ) :
    ((p.enable_L_noise = false ∨ t < p.noise_start_time) →
      (generate_white_noise p active t sample).1 = 0) ∧
    (p.enable_L_noise = true → p.noise_start_time ≤ t →
      (generate_white_noise p active t sample).1
        = npClip sample (-(3 * p.noise_std)) (3 * p.noise_std)) ∧
    (p.enable_L_noise = true → p.noise_start_time ≤ t → 0 ≤ p.noise_std →
      -(3 * p.noise_std) ≤ (generate_white_noise p active t sample).1 ∧
      (generate_white_noise p active t sample).1 ≤ 3 * p.noise_std) ∧
    (∀ (w : WNState), (wnStep p w t sample).2.L_noise
      = (generate_white_noise p w.noise_active t sample).1) := by
  refine ⟨?_, ?_, ?_, fun w => rfl⟩
  · intro h
    unfold generate_white_noise
    split_ifs with hc
    · rcases h with h | h
      · rw [h] at hc
        simp at hc
      · linarith [hc.2]
    · rfl
  · intro he ht
    unfold generate_white_noise
    rw [if_pos ⟨he, ht⟩]
  · intro he ht hstd
    unfold generate_white_noise
    rw [if_pos ⟨he, ht⟩]
    exact ⟨lo_le_npClip _ _ _ (by linarith), npClip_le_hi _ _ _⟩

/-- C4 witness: with noise enabled, `std = 5`, start time 150, the value
at time 100 is 0, and the value at time 150 for the draw 100 is clipped
into `[-15, 15]`. -/
theorem white_noise_gating_witness :
    (generate_white_noise wnNoiseParams false 100 100).1 = 0 ∧
    -(3 * 5) ≤ (generate_white_noise wnNoiseParams false 150 100).1 ∧
    (generate_white_noise wnNoiseParams false 150 100).1 ≤ 3 * 5 := by
  refine ⟨(white_noise_gating wnNoiseParams false 100 100).1
    (Or.inr (by norm_num [wnNoiseParams])), ?_, ?_⟩
  · have := ((white_noise_gating wnNoiseParams false 150 100).2.2.1
      rfl (by norm_num [wnNoiseParams]) (by norm_num [wnNoiseParams])).1
    simpa [wnNoiseParams] using this
  · have := ((white_noise_gating wnNoiseParams false 150 100).2.2.1
      rfl (by norm_num [wnNoiseParams]) (by norm_num [wnNoiseParams])).2
    simpa [wnNoiseParams] using this

/-- C5 counterexample: with threshold `d = 40` the emergency distance is
`24`; at gap `x1 = 5 < 24` and raw acceleration `-3.5`, the safety
governor returns `min(-3.5, -3) = -3.5`, not the hard-brake value `-3`;
moreover the hard-brake value `-3` is not more negative than the clip
floor `-4`. -/
theorem emergency_brake_not_forced :
    (5 : ℚ) < 40 * (6/10) ∧
    (apply_safety_constraints 40 5 50 (0, -7/2, 0)).2.1 = -7/2 ∧
    ((-7/2 : ℚ) ≠ -3) ∧ ¬ ((-3 : ℚ) < -4) := by
  norm_num [apply_safety_constraints, npClip, min_def, max_def]

/-- C5 amended: whenever a follower's gap is below
`emergencyGapFactor · d = 0.6 · d`, that follower's acceleration is
capped at the hard-brake value `-3` (the result is
`min(clipped acceleration, -3)`, hence at most `-3`); the hard-brake
value `-3` is less negative than the clip floor `maxDecel = -4`. -/
theorem emergency_brake_cap (d x1 x2 a0 a1 a2 : ℚ) :
    (x1 < d * (6/10) →
      (apply_safety_constraints d x1 x2 (a0, a1, a2)).2.1
        = min (npClip a1 (-4) 3) (-3) ∧
      (apply_safety_constraints d x1 x2 (a0, a1, a2)).2.1 ≤ -3) ∧
    (x2 < d * (6/10) →
      (apply_safety_constraints d x1 x2 (a0, a1, a2)).2.2
        = min (npClip a2 (-4) 3) (-3) ∧
      (apply_safety_constraints d x1 x2 (a0, a1, a2)).2.2 ≤ -3) ∧
    ((-4 : ℚ) < -3) := by
  refine ⟨?_, ?_, by norm_num⟩
  · intro h
    constructor
    · simp [apply_safety_constraints, h]
    · simp only [apply_safety_constraints, h, if_true]
      exact min_le_right _ _
  · intro h
    constructor
    · simp [apply_safety_constraints, h]
    · simp only [apply_safety_constraints, h, if_true]
      exact min_le_right _ _

/-- C5 witness: at `d = 40`, gaps `x1 = x2 = 5 < 24` and zero raw
accelerations, both followers' accelerations are capped at `-3`. -/
theorem emergency_brake_cap_witness :
    (apply_safety_constraints 40 5 5 (0, 0, 0)).2.1 ≤ -3 ∧
    (apply_safety_constraints 40 5 5 (0, 0, 0)).2.2 ≤ -3 :=
  ⟨((emergency_brake_cap 40 5 5 0 0 0).1 (by norm_num)).2,
   ((emergency_brake_cap 40 5 5 0 0 0).2.1 (by norm_num)).2⟩

/-- C6 counterexample: the Line constructor records
`x1 = x0 - y1 = -50 < 0` for initial positions `[100, 150, 100]` (the
follower ahead of the leader), and `circular_distance` is negative when
the positions' separation exceeds the track length
(`circular_distance 1000 0 5000 = -4000`): the gap is not non-negative
for every pair of positions. -/
theorem gap_nonneg_cex :
    (lineInitGaps 100 150 100).1 = -50 ∧
    ¬ (0 ≤ (lineInitGaps 100 150 100).1) ∧
    circular_distance 1000 0 5000 = -4000 ∧
    ¬ (0 ≤ circular_distance 1000 0 5000) := by
  norm_num [lineInitGaps, circular_distance, min_def, abs]

/-- C6 amended: on Ring the shortest-arc distance lies in
`[0, length/2]` for every pair of positions whose separation is at most
the track length (in particular for wrapped positions); on Open the
initial recorded gap is `leaderPosition - followerPosition`, which is
non-negative exactly when the leader is ahead and strictly negative when
the follower is ahead. -/
theorem gap_nonneg_amended (L a b x0 y1 y2 : ℚ) :
    (|a - b| ≤ L →
      0 ≤ circular_distance L a b ∧ circular_distance L a b ≤ L / 2) ∧
    (y1 ≤ x0 → 0 ≤ (lineInitGaps x0 y1 y2).1) ∧
    (x0 < y1 → (lineInitGaps x0 y1 y2).1 < 0) := by
  refine ⟨?_, ?_, ?_⟩
  · intro h
    constructor
    · exact le_min (abs_nonneg _) (by linarith)
    · have h1 : min |a - b| (L - |a - b|) ≤ |a - b| := min_le_left _ _
      have h2 : min |a - b| (L - |a - b|) ≤ L - |a - b| := min_le_right _ _
      unfold circular_distance
      linarith
  · intro h
    simp only [lineInitGaps]
    linarith
  · intro h
    simp only [lineInitGaps]
    linarith

/-- C6 witness: the Ring bounds at positions 200 and 150 on track length
1000 (gap 50), and the Open initial gap signs at `x0 = 200, y1 = 150`
and at `x0 = 100, y1 = 150`. -/
theorem gap_nonneg_amended_witness :
    (0 ≤ circular_distance 1000 200 150 ∧
      circular_distance 1000 200 150 ≤ 1000 / 2) ∧
    0 ≤ (lineInitGaps 200 150 100).1 ∧
    (lineInitGaps 100 150 100).1 < 0 :=
  ⟨(gap_nonneg_amended 1000 200 150 200 150 100).1 (by norm_num),
   (gap_nonneg_amended 1000 200 150 200 150 100).2.1 (by norm_num),
   (gap_nonneg_amended 1000 200 150 100 150 100).2.2 (by norm_num)⟩

/-- C7: in the Ring scenario (positions `[200, 150, 100]`, track length
1000, velocities 20, threshold 30, `dt = 5`, all mode coefficients 0 —
with the base velocity of `ring_F1_onlylookforward` at its default 20),
one step of the White-Noise variant and one step of
`ring_F1_onlylookforward` leave all velocities at 20 and advance each
position by exactly `20 * 5 = 100` modulo the track length. -/
theorem ring_zero_coefficient_step :
    (wnStep wnZeroCoeffParams ⟨ringScenarioState, false⟩ 0 0).1.s
      = ⟨300, 250, 200, 50, 50, 20, 20, 20⟩ ∧
    ringF1Step ringF1ZeroCoeffParams ringScenarioState
      = ⟨300, 250, 200, 50, 50, 20, 20, 20⟩ ∧
    pymod (200 + 20 * 5) 1000 = 300 ∧
    pymod (150 + 20 * 5) 1000 = 250 ∧
    pymod (100 + 20 * 5) 1000 = 200 := by
  refine ⟨?_, ?_, by norm_num [pymod], by norm_num [pymod], by norm_num [pymod]⟩
  · norm_num [wnStep, wnZeroCoeffParams, ringScenarioState, wnTargets,
      calculate_accelerations, apply_safety_constraints, generate_white_noise,
      npClip, pymod, circular_distance, heaviside_step, min_def, max_def, abs]
  · norm_num [ringF1Step, ringF1ZeroCoeffParams, ringScenarioState,
      ringF1Targets, calculate_accelerations, apply_safety_constraints,
      npClip, pymod, circular_distance, heaviside_step, min_def, max_def, abs]

/-- C8 counterexample: after the single step of a White-Noise run with
`t_max = 4, dt = 2`, the position field `x0` holds 2 records while the
`lambda1` field holds 1, so not all fields have equal length; and the
`time` field still has its construction length 2 — it does not grow by
one record per step. -/
theorem history_fields_unequal :
    (wnRun wnSmallParams 200 150 100 20 20 20 (fun _ => 0)).2.x0.length = 2 ∧
    (wnRun wnSmallParams 200 150 100 20 20 20 (fun _ => 0)).2.lambda1.length = 1 ∧
    (wnRun wnSmallParams 200 150 100 20 20 20 (fun _ => 0)).2.time.length = 2 ∧
    (2 : ℕ) ≠ 1 := by
  have h2 : (⌈(4 : ℚ) / 2⌉).toNat = 2 := by
    norm_num
    rfl
  refine ⟨?_, ?_, ?_, by norm_num⟩ <;>
    simp [wnRun, wnRunAux, wnAppend, wnInitHistory, arange, wnSmallParams, h2,
      List.range_succ]

/-- C8 amended: each simulated step appends exactly one record to every
list-valued history field (positions, gaps, velocities, lambdas, mode,
target velocities, accelerations, disturbance value, noise-free Lead
speed, noise flag), so after `n` steps each such field has grown by
exactly `n`; the `time` field is a fixed grid written at construction and
never grows; positions, gaps and velocities carry one extra initial
record (length `n + 1` after `n` steps, versus `n` for the per-step
fields). -/
theorem history_growth (p : WNParams) (samples : ℕ → ℚ) (n i : ℕ)
    (w : WNState) (h : WNHistory) (s : SimState) :
    (wnRunAux p samples i n (w, h)).2.time = h.time ∧
    listFieldLengths (wnRunAux p samples i n (w, h)).2
      = (listFieldLengths h).map (fun k => k + n) ∧
    (wnInitHistory p s).time = arange p.tmax p.dt ∧
    listFieldLengths (wnInitHistory p s)
      = [1, 1, 1, 1, 1, 1, 1, 1, 0, 0, 0, 0, 0, 0, 0, 0, 0, 0, 0, 0] := by
  refine ⟨(wnRunAux_lengths p samples n i w h).1,
    (wnRunAux_lengths p samples n i w h).2, rfl, ?_⟩
  simp [wnInitHistory, listFieldLengths]

/-- C9 counterexample: the `ring2_BasedOnLine` variant accepts no RNG
seed — its noise comes from the process-global unseeded `np.random` — so
two instances constructed with identical parameters (the default
construction) can consume different global draws and then produce
different history logs: here the two runs' recorded `accel_1` differ
(`-3/5` versus `2/5`). -/
theorem ring2_identical_construction_differs :
    ring2Run ring2DefaultParams (fun _ => ⟨0, 0, 0, 0⟩) 1 ring2InitState ≠
    ring2Run ring2DefaultParams (fun _ => ⟨0, 1, 0, 0⟩) 1 ring2InitState := by
  have hA : (ring2Run ring2DefaultParams (fun _ => ⟨0, 0, 0, 0⟩) 1
      ring2InitState).map (fun r => r.2.accel_1) = [-3/5] := by
    norm_num [ring2Run, ring2Step, ring2Targets, calculate_accelerations,
      apply_safety_constraints, add_realistic_noise, npClip,
      circular_distance, heaviside_step, ring2DefaultParams, ring2InitState,
      min_def, max_def, abs]
  have hB : (ring2Run ring2DefaultParams (fun _ => ⟨0, 1, 0, 0⟩) 1
      ring2InitState).map (fun r => r.2.accel_1) = [2/5] := by
    norm_num [ring2Run, ring2Step, ring2Targets, calculate_accelerations,
      apply_safety_constraints, add_realistic_noise, npClip,
      circular_distance, heaviside_step, ring2DefaultParams, ring2InitState,
      min_def, max_def, abs]
  intro h
  have hc := congrArg (List.map (fun (r : SimState × Ring2Record) =>
    r.2.accel_1)) h
  rw [hA, hB] at hc
  norm_num at hc

/-- C9 amended: for the `White Noise` variant, a run is a pure function
of the construction parameters and the RNG seed (the seeded generator is
a deterministic stream), so two instances constructed with identical
parameters and seed, each run in isolation, produce bit-identical
histories.  The `ring2_BasedOnLine` variant takes no seed and draws from
the process-global RNG, so this guarantee does not extend to it. -/
theorem wn_seeded_run_deterministic (p1 p2 : WNParams)
    (x0 y1 y2 v0 v1 v2 : ℚ) (seed1 seed2 : ℕ)
    (hp : p1 = p2) (hs : seed1 = seed2) :
    wnSeededRun p1 x0 y1 y2 v0 v1 v2 seed1
      = wnSeededRun p2 x0 y1 y2 v0 v1 v2 seed2 := by
  subst hp
  subst hs
  rfl

/-- C9 witness: two White-Noise runs with identical parameters and seed
42 are equal. -/
theorem wn_seeded_run_deterministic_witness :
    wnSeededRun wnNoiseParams 3000 2950 2900 60 60 60 42
      = wnSeededRun wnNoiseParams 3000 2950 2900 60 60 60 42 :=
  wn_seeded_run_deterministic wnNoiseParams wnNoiseParams
    3000 2950 2900 60 60 60 42 42 rfl rfl

/-- C10: in `ring2_BasedOnLine` the noise is added after the safety
clamp and emergency override and the result is recorded and integrated
without re-clamping: a draw of `+4` on F1 yields a recorded
`accel_1 = 17/5 > 3 = maxAccel` (outside `[-4, 3]`), and the post-step
`v1` exceeds what any acceleration `≤ 3` could produce; in an emergency
state (`x1 = 10 < 24`) a draw of `+2` yields a recorded
`accel_1 = -1 > -3`, exceeding the emergency-brake cap. -/
theorem ring2_noise_escapes_bounds :
    (ring2Step ring2DefaultParams ring2InitState ⟨0, 4, 0, 0⟩).2.accel_1
      = 17/5 ∧
    ¬ ((ring2Step ring2DefaultParams ring2InitState ⟨0, 4, 0, 0⟩).2.accel_1
      ≤ 3) ∧
    (ring2Step ring2DefaultParams ring2InitState ⟨0, 4, 0, 0⟩).1.v1
      = 134/5 ∧
    ¬ ((ring2Step ring2DefaultParams ring2InitState ⟨0, 4, 0, 0⟩).1.v1
      ≤ 20 + 3 * 2) ∧
    ring2EmergencyState.x1 < ring2DefaultParams.d * (6/10) ∧
    (ring2Step ring2DefaultParams ring2EmergencyState ⟨0, 2, 0, 0⟩).2.accel_1
      = -1 ∧
    ¬ ((ring2Step ring2DefaultParams ring2EmergencyState ⟨0, 2, 0, 0⟩).2.accel_1
      ≤ -3) := by
  refine ⟨?_, ?_, ?_, ?_, ?_, ?_, ?_⟩ <;>
    norm_num [ring2Step, ring2Targets, calculate_accelerations,
      apply_safety_constraints, add_realistic_noise, npClip,
      circular_distance, heaviside_step, ring2DefaultParams, ring2InitState,
      ring2EmergencyState, min_def, max_def, abs]

end CarFollow
